import Mathlib

/-!
Verification development for the AI-Ticker message acquisition pipeline.

The definitions below are a shallow embedding of the Python sources:
`app.py` (MessageCache, RecentMessagesTracker, get_ai_message),
`plugin_client.py` (PluginAwareAIClient.get_message, _is_similar,
health_check_all and the provider-order randomization loop),
`plugins/registry.py` (PluginRegistry.register_plugin) and
`plugins/plugin_manager.py` (PluginManager.load_all_plugins).

Machine-level aspects (file I/O, network calls, Python exceptions) are made
explicit: persisted files become list-valued state, a provider call becomes
an `Option String` outcome (`none` = exception or missing content), and a
fallible load becomes an `Except` value.
-/

namespace AITicker

/-- Length of a longest common subsequence of two character lists.
`rapidfuzz.fuzz.ratio` is the normalized indel similarity
`100 * (1 - dist/(|a|+|b|))` where the indel distance satisfies
`dist = |a| + |b| - 2 * lcs`, so the ratio equals `200*lcs/(|a|+|b|)`. -/
def lcsLen : List Char → List Char → Nat
  | [], _ => 0
  | _ :: _, [] => 0
  | a :: as, b :: bs =>
    if a = b then lcsLen as bs + 1
    else max (lcsLen as (b :: bs)) (lcsLen (a :: as) bs)
termination_by a b => a.length + b.length
decreasing_by all_goals simp_arith

/-- Test `fuzz.ratio(a, b) >= t` for an integer threshold `t`, phrased over
naturals: `200*lcs/(|a|+|b|) >= t` iff `t*(|a|+|b|) <= 200*lcs`.
`rapidfuzz` defines the ratio of two empty strings to be `100`. -/
def ratioGe (a b : List Char) (t : Nat) : Bool :=
  if a.length + b.length = 0 then decide (t ≤ 100)
  else decide (t * (a.length + b.length) ≤ 200 * lcsLen a b)

/-- Embeds `PluginAwareAIClient._is_similar` (`plugin_client.py` lines
105-122): the new message is "too similar" when some existing message has
`fuzz.ratio(new, existing) >= threshold`. -/
def isSimilar (new : String) (existing : List String) (threshold : Nat) : Bool :=
  existing.any (fun e => ratioGe new.data e.data threshold)

theorem lcsLen_le_left : ∀ a b : List Char, lcsLen a b ≤ a.length := by
  intro a b
  induction a, b using lcsLen.induct with
  | case1 b => simp [lcsLen]
  | case2 a as => simp [lcsLen]
  | case3 as b bs ih =>
      simp only [lcsLen, eq_self_iff_true, if_true, List.length_cons]
      omega
  | case4 a as b bs h ih1 ih2 =>
      simp only [lcsLen, if_neg h, List.length_cons] at *
      omega

theorem lcsLen_le_right : ∀ a b : List Char, lcsLen a b ≤ b.length := by
  intro a b
  induction a, b using lcsLen.induct with
  | case1 b => simp [lcsLen]
  | case2 a as => simp [lcsLen]
  | case3 as b bs ih =>
      simp only [lcsLen, eq_self_iff_true, if_true, List.length_cons]
      omega
  | case4 a as b bs h ih1 ih2 =>
      simp only [lcsLen, if_neg h, List.length_cons] at *
      omega

theorem lcsLen_self : ∀ a : List Char, lcsLen a a = a.length := by
  intro a
  induction a with
  | nil => simp [lcsLen]
  | cons x xs ih => simp [lcsLen, ih]

theorem eq_of_two_lcsLen_ge : ∀ a b : List Char,
    a.length + b.length ≤ 2 * lcsLen a b → a = b := by
  intro a b
  induction a, b using lcsLen.induct with
  | case1 b =>
      intro h
      simp [lcsLen] at h
      simp [h]
  | case2 a as =>
      intro h
      simp [lcsLen] at h
  | case3 as b bs ih =>
      intro hlen
      simp only [lcsLen, eq_self_iff_true, if_true, List.length_cons] at hlen
      rw [ih (by omega)]
  | case4 a as b bs h ih1 ih2 =>
      intro hlen
      simp only [lcsLen, if_neg h, List.length_cons] at hlen
      rcases max_choice (lcsLen as (b :: bs)) (lcsLen (a :: as) bs) with hm | hm
      · rw [hm] at hlen
        have h1 := lcsLen_le_left as (b :: bs)
        have h2 := lcsLen_le_right as (b :: bs)
        simp only [List.length_cons] at h2
        omega
      · rw [hm] at hlen
        have h1 := lcsLen_le_left (a :: as) bs
        have h2 := lcsLen_le_right (a :: as) bs
        simp only [List.length_cons] at h1
        omega

/-- At threshold 100 the similarity test succeeds exactly on identical
character lists. -/
theorem ratioGe_100_iff (a b : List Char) : ratioGe a b 100 = true ↔ a = b := by
  unfold ratioGe
  split
  · rename_i h0
    have ha : a = [] := List.length_eq_zero.mp (by omega)
    have hb : b = [] := List.length_eq_zero.mp (by omega)
    simp [ha, hb]
  · rename_i h0
    simp only [decide_eq_true_eq]
    constructor
    · intro h
      exact eq_of_two_lcsLen_ge a b (by omega)
    · intro h
      subst h
      rw [lcsLen_self]
      omega

/-- At threshold 0 the similarity test always succeeds. -/
theorem ratioGe_zero (a b : List Char) : ratioGe a b 0 = true := by
  unfold ratioGe
  split <;> simp

theorem isSimilar_100_iff_mem (c : String) (cached : List String) :
    isSimilar c cached 100 = true ↔ c ∈ cached := by
  unfold isSimilar
  rw [List.any_eq_true]
  constructor
  · rintro ⟨e, he, hr⟩
    have : c.data = e.data := (ratioGe_100_iff c.data e.data).mp hr
    rwa [String.ext this]
  · intro hc
    exact ⟨c, hc, (ratioGe_100_iff c.data c.data).mpr rfl⟩

theorem isSimilar_zero (new : String) (existing : List String)
    (h : existing ≠ []) : isSimilar new existing 0 = true := by
  unfold isSimilar
  rw [List.any_eq_true]
  match existing, h with
  | e :: rest, _ => exact ⟨e, List.mem_cons_self e rest, ratioGe_zero _ _⟩

theorem isSimilar_nil (new : String) (t : Nat) : isSimilar new [] t = false := rfl

/-- Embeds the provider loop of `PluginAwareAIClient.get_message`
(`plugin_client.py` lines 81-103). The providers are given in iteration
order (after the randomization loop); each provider call is abstracted to
its outcome: `none` for a raised exception or a missing/`None` response,
`some c` for a reply with content `c`. An empty content string is falsy in
Python (`if response and response.content:`), so it is skipped like a
failure; a non-empty reply is accepted iff it is not too similar to the
existing messages, otherwise the loop continues. -/
def getMessage : List (Option String) → List String → Nat → Option String
  | [], _, _ => none
  | none :: rest, existing, t => getMessage rest existing t
  | some c :: rest, existing, t =>
    if c = "" then getMessage rest existing t
    else if isSimilar c existing t then getMessage rest existing t
    else some c

theorem getMessage_none_of_all_fail (ps : List (Option String))
    (existing : List String) (t : Nat)
    (h : ∀ o ∈ ps, o = none ∨ o = some "") :
    getMessage ps existing t = none := by
  induction ps with
  | nil => rfl
  | cons o rest ih =>
      have hrest : ∀ o ∈ rest, o = none ∨ o = some "" := by
        intro x hx
        exact h x (List.mem_cons_of_mem o hx)
      rcases h o (List.mem_cons_self o rest) with ho | ho <;> subst ho
      · exact ih hrest
      · simp only [getMessage, if_pos rfl]
        exact ih hrest

theorem getMessage_zero_threshold (ps : List (Option String))
    (existing : List String) (h : existing ≠ []) :
    getMessage ps existing 0 = none := by
  induction ps with
  | nil => rfl
  | cons o rest ih =>
      match o with
      | none => exact ih
      | some c =>
          by_cases hc : c = ""
          · simp only [getMessage, if_pos hc]
            exact ih
          · simp only [getMessage, if_neg hc, isSimilar_zero c existing h,
              if_true]
            exact ih

/-- Python list slice `xs[-n:]` as used by both save methods. For `n = 0`
the slice `xs[-0:]` is `xs[0:]`, the whole list; otherwise it keeps the
last `n` elements. -/
def pyLastSlice (n : Nat) (xs : List String) : List String :=
  if n = 0 then xs else xs.drop (xs.length - n)

/-- Embeds `MessageCache.save` (`app.py` lines 126-137): prune to
`messages[-max_size:]` when `len(messages) > max_size`, else keep as is. -/
def cacheSave (maxSize : Nat) (messages : List String) : List String :=
  if maxSize < messages.length then pyLastSlice maxSize messages else messages

/-- Embeds `RecentMessagesTracker.save` (`app.py` lines 166-175):
`messages[-limit:] if len(messages) > limit else messages`. -/
def trackerSave (limit : Nat) (messages : List String) : List String :=
  if limit < messages.length then pyLastSlice limit messages else messages

/-- Embeds `MessageCache.add_message` (`app.py` lines 139-143):
load, append, save. -/
def cacheAdd (maxSize : Nat) (messages : List String) (m : String) : List String :=
  cacheSave maxSize (messages ++ [m])

/-- Embeds `RecentMessagesTracker.add_message` (`app.py` lines 177-181). -/
def trackerAdd (limit : Nat) (messages : List String) (m : String) : List String :=
  trackerSave limit (messages ++ [m])

/-- The fixed terminal-unavailability sentinel of `get_ai_message`. -/
def unavailableSentinel : String :=
  "[No response available - please check configuration]"

/-- The archival-fallback marker suffix of `get_ai_message`. -/
def archiveSuffix : String := " (from archive)"

/-- Configuration slice of `config.py` relevant to the orchestrator.
`cacheProbPct` is `int(config.cache_probability * 100)`; `config._validate`
requires `last_limit >= 1` and `max_cache_size >= 1` at startup. -/
structure Cfg where
  cacheProbPct : Nat
  fuzzyThreshold : Nat
  maxCacheSize : Nat
  lastLimit : Nat

/-- Persisted state read and written by one `get_ai_message` call: the
message-cache file contents and the recency file contents. -/
structure TickerState where
  cached : List String
  recent : List String
deriving DecidableEq

/-- Random draws and provider outcomes consumed by one call:
`probDraw` is `secrets.randbelow(100)`; `cachePick` and `fallbackPick`
stand for the `secrets.randbelow(len(...))` index draws; `providers` is
the provider outcome list in post-randomization iteration order. -/
structure Draws where
  probDraw : Nat
  cachePick : Nat
  providers : List (Option String)
  fallbackPick : Nat

/-- Result of one `get_ai_message` call: the returned string, the persisted
state afterwards, and how many times each file was written. -/
structure StepResult where
  message : String
  state : TickerState
  cacheWrites : Nat
  recentWrites : Nat
deriving DecidableEq

/-- Uniform pick `l[secrets.randbelow(len(l))]`, with the draw modelled as
an arbitrary natural reduced mod the length (only used on non-empty
lists, where `l.getD (k % l.length) ""` hits a real element). -/
def pick (l : List String) (k : Nat) : String := l.getD (k % l.length) ""

/-- Embeds the provider/fallback/sentinel part of `get_ai_message`
(`app.py` lines 330-354): try `ai_client.get_message`; on success append
to cache and recency; else fall back to a random cached message suffixed
with the archive marker; else return the sentinel without writing. -/
def generationPhase (cfg : Cfg) (st : TickerState) (d : Draws) : StepResult :=
  match getMessage d.providers st.cached cfg.fuzzyThreshold with
  | some newMsg =>
      { message := newMsg,
        state := { cached := cacheAdd cfg.maxCacheSize st.cached newMsg,
                   recent := trackerAdd cfg.lastLimit st.recent newMsg },
        cacheWrites := 1, recentWrites := 1 }
  | none =>
      if st.cached.isEmpty then
        { message := unavailableSentinel, state := st,
          cacheWrites := 0, recentWrites := 0 }
      else
        let fb := pick st.cached d.fallbackPick
        { message := fb ++ archiveSuffix,
          state := { cached := st.cached,
                     recent := trackerAdd cfg.lastLimit st.recent fb },
          cacheWrites := 0, recentWrites := 1 }

/-- Embeds `get_ai_message` (`app.py` lines 305-354). The cache path runs
when the cache is non-empty and `secrets.randbelow(100) <
int(cache_probability * 100)`; it prefers cached messages not in the
recency list, falling back to all cached messages when that filter is
empty, then picks one uniformly, records it in the recency tracker and
returns it. Otherwise the generation/fallback/sentinel phase runs. -/
def get_ai_message (cfg : Cfg) (st : TickerState) (d : Draws) : StepResult :=
  if st.cached ≠ [] ∧ d.probDraw < cfg.cacheProbPct then
    let avail0 := st.cached.filter (fun m => ! st.recent.contains m)
    let avail := if avail0.isEmpty then st.cached else avail0
    if avail.isEmpty then generationPhase cfg st d
    else
      let selected := pick avail d.cachePick
      { message := selected,
        state := { cached := st.cached,
                   recent := trackerAdd cfg.lastLimit st.recent selected },
        cacheWrites := 0, recentWrites := 1 }
  else generationPhase cfg st d

/-- State transformer of one orchestration call. -/
def stepState (cfg : Cfg) (st : TickerState) (d : Draws) : TickerState :=
  (get_ai_message cfg st d).state

/-- A whole sequence of `get_ai_message` calls, one `Draws` per call. -/
def runCalls (cfg : Cfg) (st : TickerState) (ds : List Draws) : TickerState :=
  ds.foldl (stepState cfg) st

theorem trackerSave_length (limit : Nat) (xs : List String) (h : 0 < limit) :
    (trackerSave limit xs).length = min limit xs.length := by
  unfold trackerSave pyLastSlice
  split
  · rw [if_neg (by omega)]
    rw [List.length_drop]
    omega
  · omega

theorem cacheSave_length (maxSize : Nat) (xs : List String) (h : 0 < maxSize) :
    (cacheSave maxSize xs).length = min maxSize xs.length := by
  unfold cacheSave pyLastSlice
  split
  · rw [if_neg (by omega)]
    rw [List.length_drop]
    omega
  · omega

theorem cacheSave_drops_oldest (maxSize : Nat) (xs : List String)
    (h : 0 < maxSize) (hlen : maxSize < xs.length) :
    cacheSave maxSize xs = xs.drop (xs.length - maxSize) := by
  unfold cacheSave pyLastSlice
  rw [if_pos hlen, if_neg (by omega)]

theorem trackerSave_drops_oldest (limit : Nat) (xs : List String)
    (h : 0 < limit) (hlen : limit < xs.length) :
    trackerSave limit xs = xs.drop (xs.length - limit) := by
  unfold trackerSave pyLastSlice
  rw [if_pos hlen, if_neg (by omega)]

theorem trackerAdd_length_le (limit : Nat) (xs : List String) (m : String)
    (h : 0 < limit) : (trackerAdd limit xs m).length ≤ limit := by
  unfold trackerAdd
  rw [trackerSave_length _ _ h]
  omega

theorem cacheAdd_length_le (maxSize : Nat) (xs : List String) (m : String)
    (h : 0 < maxSize) : (cacheAdd maxSize xs m).length ≤ maxSize := by
  unfold cacheAdd
  rw [cacheSave_length _ _ h]
  omega

theorem trackerAdd_getLast (limit : Nat) (xs : List String) (m : String)
    (h : 0 < limit) : (trackerAdd limit xs m).getLast? = some m := by
  unfold trackerAdd trackerSave pyLastSlice
  split
  · rw [if_neg (by omega)]
    set L := xs ++ [m] with hL
    set k := L.length - limit with hk
    have hLlen : L.length = xs.length + 1 := by
      rw [hL]; simp
    have hlt : k < L.length := by omega
    have hne : L.drop k ≠ [] := by
      intro hnil
      have := List.length_drop k L
      rw [hnil] at this
      simp at this
      omega
    have hsome := List.getLast?_isSome.mpr hne
    obtain ⟨y, hy⟩ := Option.isSome_iff_exists.mp hsome
    have hsplit : L.take k ++ L.drop k = L := List.take_append_drop k L
    have hlast : L.getLast? = some m := by
      simp only [hL]
      rw [List.getLast?_append]
      simp
    rw [← hsplit, List.getLast?_append, hy] at hlast
    simp at hlast
    rw [hy, hlast]
  · rw [List.getLast?_append]
    simp

theorem scenario_ABC_eval (pd k fk t ms limit : Nat)
    (provs : List (Option String)) (hpd : pd < 100) :
    get_ai_message ⟨100, t, ms, limit⟩ ⟨["A", "B", "C"], ["A"]⟩
        ⟨pd, k, provs, fk⟩ =
      { message := pick ["B", "C"] k,
        state := { cached := ["A", "B", "C"],
                   recent := trackerAdd limit ["A"] (pick ["B", "C"] k) },
        cacheWrites := 0, recentWrites := 1 } := by
  unfold get_ai_message
  rw [if_pos ⟨by simp, hpd⟩]
  rfl

theorem pick_BC (k : Nat) : pick ["B", "C"] k = "B" ∨ pick ["B", "C"] k = "C" := by
  have h2 : k % 2 = 0 ∨ k % 2 = 1 := by omega
  rcases h2 with h | h
  · left
    simp [pick, h]
  · right
    simp [pick, h]

theorem generationPhase_inv (cfg : Cfg) (st : TickerState) (d : Draws)
    (hmax : 0 < cfg.maxCacheSize) (hlim : 0 < cfg.lastLimit)
    (hc : st.cached.length ≤ cfg.maxCacheSize)
    (hr : st.recent.length ≤ cfg.lastLimit) :
    (generationPhase cfg st d).state.cached.length ≤ cfg.maxCacheSize ∧
      (generationPhase cfg st d).state.recent.length ≤ cfg.lastLimit := by
  unfold generationPhase
  cases getMessage d.providers st.cached cfg.fuzzyThreshold with
  | some newMsg =>
      exact ⟨cacheAdd_length_le _ _ _ hmax, trackerAdd_length_le _ _ _ hlim⟩
  | none =>
      by_cases he : st.cached.isEmpty
      · simp only [he, if_true]
        exact ⟨hc, hr⟩
      · simp only [he, if_false]
        exact ⟨hc, trackerAdd_length_le _ _ _ hlim⟩

theorem stepState_inv (cfg : Cfg) (st : TickerState) (d : Draws)
    (hmax : 0 < cfg.maxCacheSize) (hlim : 0 < cfg.lastLimit)
    (hc : st.cached.length ≤ cfg.maxCacheSize)
    (hr : st.recent.length ≤ cfg.lastLimit) :
    (stepState cfg st d).cached.length ≤ cfg.maxCacheSize ∧
      (stepState cfg st d).recent.length ≤ cfg.lastLimit := by
  unfold stepState get_ai_message
  split
  · dsimp only
    split
    · split
      · exact generationPhase_inv cfg st d hmax hlim hc hr
      · exact ⟨hc, trackerAdd_length_le _ _ _ hlim⟩
    · exact ⟨hc, trackerAdd_length_le _ _ _ hlim⟩
  · exact generationPhase_inv cfg st d hmax hlim hc hr

theorem runCalls_inv (cfg : Cfg) (hmax : 0 < cfg.maxCacheSize)
    (hlim : 0 < cfg.lastLimit) (st : TickerState)
    (hc : st.cached.length ≤ cfg.maxCacheSize)
    (hr : st.recent.length ≤ cfg.lastLimit) (ds : List Draws) :
    (runCalls cfg st ds).cached.length ≤ cfg.maxCacheSize ∧
      (runCalls cfg st ds).recent.length ≤ cfg.lastLimit := by
  induction ds generalizing st with
  | nil => exact ⟨hc, hr⟩
  | cons d rest ih =>
      have hstep := stepState_inv cfg st d hmax hlim hc hr
      exact ih (stepState cfg st d) hstep.1 hstep.2

/-- C1: In the cache path with MessageStore `["A","B","C"]`,
RecencyTracker `["A"]` and cache probability 1.0 (so the probability draw
always passes), `get_ai_message` returns "B" or "C", never "A"; the
persisted recency list afterwards has length at most `limit` and ends in
the returned message. -/
theorem cache_path_scenario (pd k fk t ms limit : Nat)
    (provs : List (Option String)) (hlim : 1 ≤ limit) (hpd : pd < 100) :
    ((get_ai_message ⟨100, t, ms, limit⟩ ⟨["A", "B", "C"], ["A"]⟩
        ⟨pd, k, provs, fk⟩).message = "B" ∨
      (get_ai_message ⟨100, t, ms, limit⟩ ⟨["A", "B", "C"], ["A"]⟩
        ⟨pd, k, provs, fk⟩).message = "C") ∧
    (get_ai_message ⟨100, t, ms, limit⟩ ⟨["A", "B", "C"], ["A"]⟩
        ⟨pd, k, provs, fk⟩).message ≠ "A" ∧
    (get_ai_message ⟨100, t, ms, limit⟩ ⟨["A", "B", "C"], ["A"]⟩
        ⟨pd, k, provs, fk⟩).state.recent.length ≤ limit ∧
    (get_ai_message ⟨100, t, ms, limit⟩ ⟨["A", "B", "C"], ["A"]⟩
        ⟨pd, k, provs, fk⟩).state.recent.getLast? =
      some ((get_ai_message ⟨100, t, ms, limit⟩ ⟨["A", "B", "C"], ["A"]⟩
        ⟨pd, k, provs, fk⟩).message) := by
  rw [scenario_ABC_eval pd k fk t ms limit provs hpd]
  refine ⟨pick_BC k, ?_, ?_, ?_⟩
  · rcases pick_BC k with h | h <;> rw [h]
    · exact (by decide : ("B" : String) ≠ "A")
    · exact (by decide : ("C" : String) ≠ "A")
  · exact trackerAdd_length_le _ _ _ (by omega)
  · exact trackerAdd_getLast _ _ _ (by omega)

/-- Witness for `cache_path_scenario` at `limit = 3`, `k = 0`, `pd = 0`. -/
theorem cache_path_scenario_witness :
    ((get_ai_message ⟨100, 85, 200, 3⟩ ⟨["A", "B", "C"], ["A"]⟩
        ⟨0, 0, [], 0⟩).message = "B" ∨
      (get_ai_message ⟨100, 85, 200, 3⟩ ⟨["A", "B", "C"], ["A"]⟩
        ⟨0, 0, [], 0⟩).message = "C") ∧
    (get_ai_message ⟨100, 85, 200, 3⟩ ⟨["A", "B", "C"], ["A"]⟩
        ⟨0, 0, [], 0⟩).message ≠ "A" ∧
    (get_ai_message ⟨100, 85, 200, 3⟩ ⟨["A", "B", "C"], ["A"]⟩
        ⟨0, 0, [], 0⟩).state.recent.length ≤ 3 ∧
    (get_ai_message ⟨100, 85, 200, 3⟩ ⟨["A", "B", "C"], ["A"]⟩
        ⟨0, 0, [], 0⟩).state.recent.getLast? =
      some ((get_ai_message ⟨100, 85, 200, 3⟩ ⟨["A", "B", "C"], ["A"]⟩
        ⟨0, 0, [], 0⟩).message) :=
  cache_path_scenario 0 0 0 85 200 3 [] (by decide) (by decide)

/-- C3: Over every sequence of `get_ai_message` calls from a state within
bounds (with the startup-validated configuration `max_cache_size >= 1`,
`last_limit >= 1`), the persisted MessageStore never exceeds `maxSize`
entries and the persisted RecencyTracker never exceeds `limit` entries;
and whenever a save call is given an over-long list, it keeps exactly the
last `maxSize` (resp. `limit`) entries, dropping the oldest prefix. -/
theorem stores_bounded_and_drop_oldest (cfg : Cfg)
    (hmax : 0 < cfg.maxCacheSize) (hlim : 0 < cfg.lastLimit)
    (st : TickerState) (hc : st.cached.length ≤ cfg.maxCacheSize)
    (hr : st.recent.length ≤ cfg.lastLimit) (ds : List Draws) :
    ((runCalls cfg st ds).cached.length ≤ cfg.maxCacheSize ∧
      (runCalls cfg st ds).recent.length ≤ cfg.lastLimit) ∧
    (∀ msgs : List String, cfg.maxCacheSize < msgs.length →
      cacheSave cfg.maxCacheSize msgs =
        msgs.drop (msgs.length - cfg.maxCacheSize)) ∧
    (∀ msgs : List String, cfg.lastLimit < msgs.length →
      trackerSave cfg.lastLimit msgs =
        msgs.drop (msgs.length - cfg.lastLimit)) := by
  refine ⟨runCalls_inv cfg hmax hlim st hc hr ds, ?_, ?_⟩
  · intro msgs hlen
    exact cacheSave_drops_oldest _ _ hmax hlen
  · intro msgs hlen
    exact trackerSave_drops_oldest _ _ hlim hlen

/-- Witness for `stores_bounded_and_drop_oldest` with `maxSize = 2`,
`limit = 1`, empty start state and two calls. -/
theorem stores_bounded_witness :
    (((runCalls ⟨100, 85, 2, 1⟩ ⟨[], []⟩
        [⟨0, 0, [some "m1"], 0⟩, ⟨200, 0, [some "m2"], 0⟩]).cached.length ≤ 2 ∧
      (runCalls ⟨100, 85, 2, 1⟩ ⟨[], []⟩
        [⟨0, 0, [some "m1"], 0⟩, ⟨200, 0, [some "m2"], 0⟩]).recent.length ≤ 1) ∧
    (∀ msgs : List String, 2 < msgs.length →
      cacheSave 2 msgs = msgs.drop (msgs.length - 2)) ∧
    (∀ msgs : List String, 1 < msgs.length →
      trackerSave 1 msgs = msgs.drop (msgs.length - 1))) :=
  stores_bounded_and_drop_oldest ⟨100, 85, 2, 1⟩ (by decide) (by decide)
    ⟨[], []⟩ (by decide) (by decide) _

/-- C4: With an empty MessageStore and no provider producing content
(zero providers, or every provider raising or returning empty content),
`get_ai_message` returns the fixed unavailability sentinel as a normal
value and performs no write to either store file, leaving the state
unchanged. -/
theorem empty_store_all_fail (cfg : Cfg) (recent : List String) (d : Draws)
    (h : ∀ o ∈ d.providers, o = none ∨ o = some "") :
    (get_ai_message cfg ⟨[], recent⟩ d).message = unavailableSentinel ∧
    (get_ai_message cfg ⟨[], recent⟩ d).state = ⟨[], recent⟩ ∧
    (get_ai_message cfg ⟨[], recent⟩ d).cacheWrites = 0 ∧
    (get_ai_message cfg ⟨[], recent⟩ d).recentWrites = 0 := by
  have hbody : get_ai_message cfg ⟨[], recent⟩ d =
      { message := unavailableSentinel, state := ⟨[], recent⟩,
        cacheWrites := 0, recentWrites := 0 } := by
    unfold get_ai_message
    rw [if_neg (by simp)]
    unfold generationPhase
    rw [getMessage_none_of_all_fail d.providers _ _ h]
    rfl
  rw [hbody]
  exact ⟨rfl, rfl, rfl, rfl⟩

/-- Witness for `empty_store_all_fail`: one raising provider and one
empty-content provider. -/
theorem empty_store_all_fail_witness :
    (get_ai_message ⟨60, 85, 200, 3⟩ ⟨[], ["x"]⟩
        ⟨0, 0, [none, some ""], 0⟩).message = unavailableSentinel ∧
    (get_ai_message ⟨60, 85, 200, 3⟩ ⟨[], ["x"]⟩
        ⟨0, 0, [none, some ""], 0⟩).state = ⟨[], ["x"]⟩ ∧
    (get_ai_message ⟨60, 85, 200, 3⟩ ⟨[], ["x"]⟩
        ⟨0, 0, [none, some ""], 0⟩).cacheWrites = 0 ∧
    (get_ai_message ⟨60, 85, 200, 3⟩ ⟨[], ["x"]⟩
        ⟨0, 0, [none, some ""], 0⟩).recentWrites = 0 :=
  empty_store_all_fail ⟨60, 85, 200, 3⟩ ["x"] ⟨0, 0, [none, some ""], 0⟩
    (by decide)

/-- C2 counterexample: with threshold 0 but an empty cached list, a
provider reply is accepted, not classified as a duplicate — the loop over
`existing_messages` in `_is_similar` never runs, so it returns False and
`get_message` returns the reply. -/
theorem zero_threshold_counterexample :
    getMessage [some "hello"] [] 0 = some "hello" ∧
      isSimilar "hello" [] 0 = false := by
  constructor <;> rfl

/-- C2 (amended): with threshold 0 and a non-empty cached list, every
provider reply is classified as a duplicate (similarity 0 >= 0 holds
against any existing message), so no provider reply is ever accepted and
the generation loop returns None; the configuration is total (no crash). -/
theorem zero_threshold_rejects_all (ps : List (Option String))
    (existing : List String) (new : String) (h : existing ≠ []) :
    isSimilar new existing 0 = true ∧ getMessage ps existing 0 = none :=
  ⟨isSimilar_zero new existing h, getMessage_zero_threshold ps existing h⟩

/-- Witness for `zero_threshold_rejects_all` on a singleton cache. -/
theorem zero_threshold_rejects_all_witness :
    isSimilar "hello" ["x"] 0 = true ∧
      getMessage [some "hello", none] ["x"] 0 = none :=
  zero_threshold_rejects_all [some "hello", none] ["x"] "hello" (by decide)

theorem getMessage_skip_failures (t : Nat) (c : String)
    (rest : List (Option String)) (hc : c ≠ "") :
    ∀ pre : List (Option String), (∀ o ∈ pre, o = none ∨ o = some "") →
      getMessage (pre ++ some c :: rest) [] t = some c := by
  intro pre
  induction pre with
  | nil =>
      intro _
      simp only [List.nil_append, getMessage, if_neg hc, isSimilar_nil,
        Bool.false_eq_true, if_false]
  | cons o pre' ih =>
      intro hpre
      have h2 : ∀ x ∈ pre', x = none ∨ x = some "" := by
        intro x hx
        exact hpre x (List.mem_cons_of_mem o hx)
      rcases hpre o (List.mem_cons_self o pre') with ho | ho <;> subst ho
      · simp only [List.cons_append, getMessage]
        exact ih h2
      · simp only [List.cons_append, getMessage, if_pos rfl]
        exact ih h2

/-- C10: against an empty cached list the similarity check reports "not
similar" for every candidate and every threshold (including 0), so in the
generation loop the first provider returning non-empty content — after any
prefix of providers that raise or return empty content — has its reply
accepted unconditionally. -/
theorem empty_cache_accepts_first (t : Nat) (new : String)
    (pre : List (Option String)) (c : String) (rest : List (Option String))
    (hpre : ∀ o ∈ pre, o = none ∨ o = some "") (hc : c ≠ "") :
    isSimilar new [] t = false ∧
      getMessage (pre ++ some c :: rest) [] t = some c :=
  ⟨isSimilar_nil new t, getMessage_skip_failures t c rest hc pre hpre⟩

/-- Witness for `empty_cache_accepts_first` at threshold 0 with one
failing provider ahead of the accepting one. -/
theorem empty_cache_accepts_first_witness :
    isSimilar "x" [] 0 = false ∧
      getMessage ([none] ++ some "hello" :: [none]) [] 0 = some "hello" :=
  empty_cache_accepts_first 0 "x" [none] "hello" [none] (by decide) (by decide)

/-- C7: at threshold 100 the duplicate check classifies a reply as "too
similar" exactly when it is byte-identical to some cached entry
(`fuzz.ratio` reaches 100 only on equal strings), and such a reply is
skipped in favor of the rest of the provider list. -/
theorem threshold_100_identical_only (c : String) (cached : List String)
    (rest : List (Option String)) :
    (isSimilar c cached 100 = true ↔ c ∈ cached) ∧
      (c ∈ cached →
        getMessage (some c :: rest) cached 100 = getMessage rest cached 100) := by
  refine ⟨isSimilar_100_iff_mem c cached, ?_⟩
  intro hc
  by_cases hce : c = ""
  · simp only [getMessage, if_pos hce]
  · simp only [getMessage, if_neg hce,
      (isSimilar_100_iff_mem c cached).mpr hc, if_true]

/-- Witness for `threshold_100_identical_only`: a reply identical to a
cached entry is skipped. -/
theorem threshold_100_identical_only_witness :
    getMessage [some "A"] ["A"] 100 = getMessage [] ["A"] 100 :=
  (threshold_100_identical_only "A" ["A"] []).2 (by decide)

/-- Metadata carried by a registered plugin (`AIProviderPlugin` in
`plugins/base_provider.py`): the provider class plus descriptive fields.
The class itself is abstracted to its name. -/
structure AIProviderPlugin where
  providerClass : String
  version : String
  author : String
  description : String
deriving DecidableEq

/-- Embeds `PluginRegistry.register_plugin` (`plugins/registry.py` lines
30-48): if the name is already present return False without mutating,
otherwise store the plugin under the name and return True. The Python
dict is modelled as an insertion-ordered association list with unique
keys. -/
def register_plugin (reg : List (String × AIProviderPlugin)) (name : String)
    (plugin : AIProviderPlugin) : Bool × List (String × AIProviderPlugin) :=
  match reg.lookup name with
  | some _ => (false, reg)
  | none => (true, reg ++ [(name, plugin)])

/-- Embeds `PluginRegistry.get_plugin`: dictionary lookup by name. -/
def get_plugin (reg : List (String × AIProviderPlugin)) (name : String) :
    Option AIProviderPlugin :=
  reg.lookup name

/-- C5: registering a fresh name succeeds and stores the plugin; a second
registration under the same name returns False, leaves the registry
unchanged, and lookup still yields the first plugin — first registration
wins, collisions are rejected, never overwritten. -/
theorem register_first_wins (reg : List (String × AIProviderPlugin))
    (name : String) (d d2 : AIProviderPlugin)
    (h : get_plugin reg name = none) :
    (register_plugin reg name d).1 = true ∧
    get_plugin (register_plugin reg name d).2 name = some d ∧
    (register_plugin (register_plugin reg name d).2 name d2).1 = false ∧
    (register_plugin (register_plugin reg name d).2 name d2).2 =
      (register_plugin reg name d).2 ∧
    get_plugin (register_plugin (register_plugin reg name d).2 name d2).2 name =
      some d := by
  have h1 : register_plugin reg name d = (true, reg ++ [(name, d)]) := by
    unfold register_plugin
    unfold get_plugin at h
    rw [h]
  have hl : (reg ++ [(name, d)]).lookup name = some d := by
    unfold get_plugin at h
    rw [List.lookup_append, h]
    simp [List.lookup]
  have h2 : register_plugin (reg ++ [(name, d)]) name d2 =
      (false, reg ++ [(name, d)]) := by
    unfold register_plugin
    rw [hl]
  rw [h1]
  exact ⟨rfl, hl, by rw [h2], by rw [h2], by rw [h2]; exact hl⟩

/-- Witness for `register_first_wins` on the empty registry. -/
theorem register_first_wins_witness :
    (register_plugin [] "x" ⟨"OpenRouterProvider", "1.0.0", "a", "p1"⟩).1 = true ∧
    get_plugin (register_plugin [] "x"
      ⟨"OpenRouterProvider", "1.0.0", "a", "p1"⟩).2 "x" =
      some ⟨"OpenRouterProvider", "1.0.0", "a", "p1"⟩ ∧
    (register_plugin (register_plugin [] "x"
      ⟨"OpenRouterProvider", "1.0.0", "a", "p1"⟩).2 "x"
      ⟨"TogetherProvider", "2.0.0", "b", "p2"⟩).1 = false ∧
    (register_plugin (register_plugin [] "x"
      ⟨"OpenRouterProvider", "1.0.0", "a", "p1"⟩).2 "x"
      ⟨"TogetherProvider", "2.0.0", "b", "p2"⟩).2 =
      (register_plugin [] "x" ⟨"OpenRouterProvider", "1.0.0", "a", "p1"⟩).2 ∧
    get_plugin (register_plugin (register_plugin [] "x"
      ⟨"OpenRouterProvider", "1.0.0", "a", "p1"⟩).2 "x"
      ⟨"TogetherProvider", "2.0.0", "b", "p2"⟩).2 "x" =
      some ⟨"OpenRouterProvider", "1.0.0", "a", "p1"⟩ :=
  register_first_wins [] "x" ⟨"OpenRouterProvider", "1.0.0", "a", "p1"⟩
    ⟨"TogetherProvider", "2.0.0", "b", "p2"⟩ (by decide)

/-- Outcome of one `provider.health_check()` call: a boolean, or a raised
exception abstracted to its message. -/
def runHealth : Except String Bool → Bool
  | Except.ok b => b
  | Except.error _ => false

/-- Embeds `PluginAwareAIClient.health_check_all` (`plugin_client.py`
lines 124-143) and `PluginIntegration.health_check_all`
(`plugins/integration.py` lines 172-181): iterate over all providers,
recording the health result, with an exception caught and recorded as
False for that provider only. -/
def health_check_all (providers : List (String × Except String Bool)) :
    List (String × Bool) :=
  providers.foldl (fun acc p => acc ++ [(p.1, runHealth p.2)]) []

theorem health_foldl_acc (ps : List (String × Except String Bool)) :
    ∀ acc, ps.foldl (fun acc p => acc ++ [(p.1, runHealth p.2)]) acc =
      acc ++ ps.map (fun p => (p.1, runHealth p.2)) := by
  induction ps with
  | nil => intro acc; simp
  | cons p rest ih =>
      intro acc
      simp only [List.foldl_cons, List.map_cons]
      rw [ih]
      simp

/-- C9: the bulk health check returns an entry for every configured
provider, in order; a provider whose check raises is reported False, and
a raising provider does not prevent the others from being checked — every
ok provider keeps its own result. -/
theorem health_check_covers_all (ps : List (String × Except String Bool)) :
    (health_check_all ps).map Prod.fst = ps.map Prod.fst ∧
    (∀ n e, (n, Except.error e) ∈ ps → (n, false) ∈ health_check_all ps) ∧
    (∀ n b, (n, Except.ok b) ∈ ps → (n, b) ∈ health_check_all ps) := by
  have heq : health_check_all ps = ps.map (fun p => (p.1, runHealth p.2)) := by
    unfold health_check_all
    rw [health_foldl_acc]
    simp
  refine ⟨?_, ?_, ?_⟩
  · rw [heq, List.map_map]
    rfl
  · intro n e hmem
    rw [heq]
    exact List.mem_map_of_mem _ hmem
  · intro n b hmem
    rw [heq]
    exact List.mem_map_of_mem _ hmem

/-- Witness for `health_check_covers_all`: one healthy, one raising
provider. -/
theorem health_check_covers_all_witness :
    (health_check_all [("a", Except.ok true),
        ("b", Except.error "boom")]).map Prod.fst = ["a", "b"] ∧
    ("b", false) ∈ health_check_all [("a", Except.ok true),
        ("b", Except.error "boom")] ∧
    ("a", true) ∈ health_check_all [("a", Except.ok true),
        ("b", Except.error "boom")] :=
  ⟨((health_check_covers_all [("a", Except.ok true),
      ("b", Except.error "boom")]).1).trans (by decide),
   (health_check_covers_all [("a", Except.ok true),
      ("b", Except.error "boom")]).2.1 "b" "boom" (by simp),
   (health_check_covers_all [("a", Except.ok true),
      ("b", Except.error "boom")]).2.2 "a" true (by simp)⟩

/-- Outcome of resolving one discovered plugin unit in
`PluginManager.load_plugin` / `_load_plugin_from_file`
(`plugins/plugin_manager.py` lines 170-252), abstracted from the import
machinery: either a plugin value, or the message of the raised
`PluginLoadError`. -/
def loadOne (disabled : List String)
    (u : String × Except String AIProviderPlugin) :
    Option (String × AIProviderPlugin) :=
  if u.1 ∈ disabled then none
  else
    match u.2 with
    | Except.ok p => some (u.1, p)
    | Except.error _ => none

/-- Embeds the discovery loop of `PluginManager.load_all_plugins`
(`plugins/plugin_manager.py` lines 322-360): for each discovered unit,
skip it when disabled, catch a `PluginLoadError` (log and continue), and
collect successfully loaded plugins into the returned mapping. Failures
are only logged; they do not appear in the return value. -/
def load_all_plugins (disabled : List String)
    (units : List (String × Except String AIProviderPlugin)) :
    List (String × AIProviderPlugin) :=
  units.foldl (fun loaded u =>
    match loadOne disabled u with
    | some entry => loaded ++ [entry]
    | none => loaded) []

theorem load_foldl_acc (disabled : List String)
    (units : List (String × Except String AIProviderPlugin)) :
    ∀ acc, units.foldl (fun loaded u =>
        match loadOne disabled u with
        | some entry => loaded ++ [entry]
        | none => loaded) acc =
      acc ++ units.filterMap (loadOne disabled) := by
  induction units with
  | nil => intro acc; simp
  | cons u rest ih =>
      intro acc
      simp only [List.foldl_cons, List.filterMap_cons]
      cases h : loadOne disabled u with
      | none => rw [ih]
      | some entry =>
          rw [ih]
          simp

theorem load_all_plugins_eq (disabled : List String)
    (units : List (String × Except String AIProviderPlugin)) :
    load_all_plugins disabled units = units.filterMap (loadOne disabled) := by
  unfold load_all_plugins
  rw [load_foldl_acc]
  simp

/-- C8 counterexample: on a concrete unit list with one good and one
malformed unit, `load_all_plugins` returns only the loaded mapping; the
failed unit's identity and reason appear nowhere in the return value, so
the operation does not return a structured report of failures. -/
theorem load_all_plugins_no_failure_report :
    load_all_plugins []
        [("good", Except.ok ⟨"GoodProvider", "1.0.0", "a", "ok plugin"⟩),
         ("bad", Except.error "No BaseAIProvider subclass found")] =
      [("good", ⟨"GoodProvider", "1.0.0", "a", "ok plugin"⟩)] ∧
    "bad" ∉ (load_all_plugins []
        [("good", Except.ok ⟨"GoodProvider", "1.0.0", "a", "ok plugin"⟩),
         ("bad", Except.error "No BaseAIProvider subclass found")]).map
        Prod.fst := by
  constructor <;> decide

/-- C8 (amended): a unit that fails to load (`PluginLoadError`) is
isolated — removing it changes nothing else in the result, so every other
valid, non-disabled unit is still loaded — and the operation returns the
mapping of successfully loaded plugins only; failed units are logged and
omitted from the returned value (no failure report is returned). -/
theorem plugin_load_isolated (disabled : List String)
    (us vs : List (String × Except String AIProviderPlugin))
    (n e : String) :
    load_all_plugins disabled (us ++ (n, Except.error e) :: vs) =
      load_all_plugins disabled (us ++ vs) ∧
    (∀ m p, (m, Except.ok p) ∈ us ++ vs → m ∉ disabled →
      (m, p) ∈ load_all_plugins disabled (us ++ vs)) := by
  constructor
  · rw [load_all_plugins_eq, load_all_plugins_eq, List.filterMap_append,
      List.filterMap_append, List.filterMap_cons]
    have herr : loadOne disabled (n, Except.error e) = none := by
      unfold loadOne
      split <;> rfl
    rw [herr]
  · intro m p hm hnd
    rw [load_all_plugins_eq]
    apply List.mem_filterMap.mpr
    refine ⟨(m, Except.ok p), hm, ?_⟩
    unfold loadOne
    rw [if_neg hnd]

/-- Witness for `plugin_load_isolated`: the good unit survives a failing
sibling. -/
theorem plugin_load_isolated_witness :
    load_all_plugins []
        [("good", Except.ok ⟨"GoodProvider", "1.0.0", "a", "ok plugin"⟩),
         ("bad", Except.error "boom")] =
      load_all_plugins []
        [("good", Except.ok ⟨"GoodProvider", "1.0.0", "a", "ok plugin"⟩)] ∧
    ("good", (⟨"GoodProvider", "1.0.0", "a", "ok plugin"⟩ : AIProviderPlugin)) ∈
      load_all_plugins []
        [("good", Except.ok ⟨"GoodProvider", "1.0.0", "a", "ok plugin"⟩)] :=
  ⟨(plugin_load_isolated []
      [("good", Except.ok ⟨"GoodProvider", "1.0.0", "a", "ok plugin"⟩)] []
      "bad" "boom").1,
   (plugin_load_isolated []
      [("good", Except.ok ⟨"GoodProvider", "1.0.0", "a", "ok plugin"⟩)] []
      "bad" "boom").2 "good" ⟨"GoodProvider", "1.0.0", "a", "ok plugin"⟩
      (by simp) (by simp)⟩

/-- One iteration of the randomization loop in
`PluginAwareAIClient.get_message` (`plugin_client.py` lines 77-79):
`provider_list[i], provider_list[j] = provider_list[j], provider_list[i]`
with both reads performed before either write. Out-of-range indices leave
the list unchanged (in the source both indices are always in range). -/
def swapAt {α : Type u} (l : List α) (i j : Nat) : List α :=
  match l[i]?, l[j]? with
  | some a, some b => (l.set i b).set j a
  | _, _ => l

/-- The loop `for i in range(len(provider_list)): j =
secrets.randbelow(len(provider_list)); swap(i, j)`, with the drawn
indices passed in as `draws` (one per iteration, each drawn uniformly
from `[0, n)` in the source). -/
def shuffleLoop {α : Type u} (l : List α) (i : Nat) (draws : List Nat) : List α :=
  match draws with
  | [] => l
  | j :: rest => shuffleLoop (swapAt l i j) (i + 1) rest

/-- Embeds the whole provider-order randomization of
`PluginAwareAIClient.get_message`: the swap loop started at index 0. -/
def randomizeOrder {α : Type u} (l : List α) (draws : List Nat) : List α :=
  shuffleLoop l 0 draws

/-- All draw sequences of a given length with every entry below `n` —
the equally-likely outcomes of the `secrets.randbelow(n)` draws. -/
def allDraws : Nat → Nat → List (List Nat)
  | 0, _ => [[]]
  | k + 1, n => (List.range n).flatMap (fun j => (allDraws k n).map (fun d => j :: d))

/-- How many of the equally likely draw sequences make the randomization
loop produce a given target ordering. -/
def countOutcome (l target : List Nat) : Nat :=
  ((allDraws l.length l.length).filter
    (fun d => decide (randomizeOrder l d = target))).length

theorem swapAt_perm {α : Type u} [DecidableEq α] (l : List α) (i j : Nat) :
    (swapAt l i j).Perm l := by
  unfold swapAt
  cases h1 : l[i]? with
  | none => exact List.Perm.refl l
  | some a =>
      cases h2 : l[j]? with
      | none => exact List.Perm.refl l
      | some b =>
          obtain ⟨hi, ha⟩ := List.getElem?_eq_some.mp h1
          obtain ⟨hj, hb⟩ := List.getElem?_eq_some.mp h2
          have hj' : j < (l.set i b).length := by
            rw [List.length_set]
            exact hj
          rw [List.perm_iff_count]
          intro x
          rw [List.count_set a x (l.set i b) j hj',
            List.count_set b x l i hi]
          have hgs : (l.set i b)[j] = b := by
            rw [List.getElem_set, hb, ite_self]
          rw [hgs, ha]
          have hmem : a ∈ l := ha ▸ List.getElem_mem hi
          simp only [beq_iff_eq]
          split_ifs with h1 h2 <;>
            try omega
          all_goals
            have hcnt : 0 < List.count x l := List.count_pos_iff.mpr (h1 ▸ hmem)
          all_goals omega

theorem shuffleLoop_perm {α : Type u} [DecidableEq α] :
    ∀ (draws : List Nat) (l : List α) (i : Nat),
      (shuffleLoop l i draws).Perm l := by
  intro draws
  induction draws with
  | nil => intro l i; exact List.Perm.refl l
  | cons j rest ih =>
      intro l i
      exact (ih (swapAt l i j) (i + 1)).trans (swapAt_perm l i j)

/-- C6 counterexample: over the 27 equally likely draw sequences for a
3-element provider list, the randomization loop produces the identity
ordering 4 times but the ordering that swaps the last two providers 5
times — a uniformly random permutation would require equal counts, so the
swap loop is not a Fisher-Yates shuffle and its distribution is biased. -/
theorem randomizeOrder_not_uniform :
    (allDraws 3 3).length = 27 ∧
    countOutcome [0, 1, 2] [0, 1, 2] = 4 ∧
    countOutcome [0, 1, 2] [0, 2, 1] = 5 ∧
    countOutcome [0, 1, 2] [0, 1, 2] ≠ countOutcome [0, 1, 2] [0, 2, 1] := by
  refine ⟨by decide, by decide, by decide, by decide⟩

/-- C6 (amended): before each generation attempt the orchestrator
randomizes the provider iteration order with a swap loop (each position
swapped with a `secrets.randbelow(n)` index); for every draw sequence the
result is a permutation of the provider list — no provider is lost or
duplicated — but the permutation distribution is not uniform. -/
theorem randomizeOrder_perm {α : Type u} [DecidableEq α] (l : List α)
    (draws : List Nat) : (randomizeOrder l draws).Perm l :=
  shuffleLoop_perm draws l 0

end AITicker
